import Mathlib

/-!
# Verification of the f1-race-strategist track-map core

A shallow embedding, over exact rationals, of the coordinate-normalization
and playback-synchronization engine of `src/frontend/components/TrackMap.tsx`
(the current component) and of the legacy variant in `src/unnamed/part_002`.

JavaScript numbers are modelled as `ℚ`; the code under scrutiny performs only
field arithmetic, `Math.min`/`Math.max`, `Math.round`, comparisons and string
formatting, so every construct has a direct rational counterpart.  `Math.min
(...xs)` over a non-empty spread is modelled as a fold of `min` over the list;
an empty telemetry array would produce IEEE infinities in JavaScript, which
have no rational counterpart, so list-consuming functions return `Option` and
map the empty list to `none` (every specification claim concerns non-empty
sequences).
-/

/-- One telemetry sample, from the `TelemetryPoint` interface of
`TrackMap.tsx` (lines 5-13): 2D position, speed, and optional gear /
throttle / brake display fields. -/
structure TelemetryPoint where
  x_coordinate : ℚ
  y_coordinate : ℚ
  speed : ℚ
  n_gear : Option ℚ := none
  throttle : Option ℚ := none
  brake : Option ℚ := none
  deriving DecidableEq, Repr

/-- A projected drawing-surface position, the `{x, y}` object returned by
`normPoint`. -/
structure Point where
  x : ℚ
  y : ℚ
  deriving DecidableEq, Repr

/-- Normalization parameters, from the `NormParams` interface of
`TrackMap.tsx` (lines 21-27). -/
structure NormParams where
  minX : ℚ
  minY : ℚ
  scale : ℚ
  offsetX : ℚ
  offsetY : ℚ
  deriving DecidableEq, Repr

/-- `Math.min(x, ...l)`: minimum of a non-empty collection, phrased as a seed
element plus the remaining list. -/
def listMin (x : ℚ) (l : List ℚ) : ℚ := l.foldl min x

/-- `Math.max(x, ...l)`: maximum of a non-empty collection, phrased as a seed
element plus the remaining list. -/
def listMax (x : ℚ) (l : List ℚ) : ℚ := l.foldl max x

/-- `buildNormParams` from `TrackMap.tsx` (lines 29-48).  `Math.min(...xs)`
over the non-empty list `t :: ts` is `listMin` seeded with the head; the
JavaScript idiom `maxX - minX || 1` substitutes `1` exactly when the range is
`0` (ranges are never negative and never NaN here).  The empty telemetry
array, which in JavaScript yields infinite extrema, is mapped to `none`. -/
def buildNormParams (telemetry : List TelemetryPoint) (viewBoxSize padding : ℚ) :
    Option NormParams :=
  match telemetry with
  | [] => none
  | t :: ts =>
    let minX := listMin t.x_coordinate (ts.map fun p => p.x_coordinate)
    let maxX := listMax t.x_coordinate (ts.map fun p => p.x_coordinate)
    let minY := listMin t.y_coordinate (ts.map fun p => p.y_coordinate)
    let maxY := listMax t.y_coordinate (ts.map fun p => p.y_coordinate)
    let rangeX := if maxX - minX = 0 then 1 else maxX - minX
    let rangeY := if maxY - minY = 0 then 1 else maxY - minY
    let maxRange := max rangeX rangeY
    let drawable := viewBoxSize - padding * 2
    let scale := drawable / maxRange
    let offsetX := padding + (drawable - rangeX * scale) / 2
    let offsetY := padding + (drawable - rangeY * scale) / 2
    some ⟨minX, minY, scale, offsetX, offsetY⟩

/-- `normPoint` from `TrackMap.tsx` (lines 50-58). -/
def normPoint (p : TelemetryPoint) (params : NormParams) : Point :=
  ⟨(p.x_coordinate - params.minX) * params.scale + params.offsetX,
   (p.y_coordinate - params.minY) * params.scale + params.offsetY⟩

/-- JavaScript `Number.prototype.toFixed(2)`: render with exactly two decimal
digits, rounding half away from zero.  Both component variants feed identical
rationals through this formatter, so the refinement claim is insensitive to
the exact tie-breaking rule. -/
def toFixed2 (q : ℚ) : String :=
  let n : Int := q.num.sign * Int.floor (abs q * 100 + 1 / 2)
  let s := if n < 0 then "-" else ""
  let a := n.natAbs
  let r := a % 100
  s ++ toString (a / 100) ++ "." ++ (if r < 10 then "0" else "") ++ toString r

/-- `buildPathData` from `TrackMap.tsx` (lines 60-67): `M x y` for the first
sample, `L x y` for each later one, joined by single spaces. -/
def buildPathData (telemetry : List TelemetryPoint) (params : NormParams) : String :=
  String.intercalate " "
    (telemetry.enum.map fun ip =>
      let q := normPoint ip.2 params
      (if ip.1 = 0 then "M" else "L") ++ " " ++ toFixed2 q.x ++ " " ++ toFixed2 q.y)

/-- JavaScript `Math.round`: round half toward positive infinity. -/
def jsRound (q : ℚ) : ℤ := Int.floor (q + 1 / 2)

/-- The interpolation parameter `t` of `speedColor` (`TrackMap.tsx` line 72):
`Math.max(0, Math.min(1, (speed - min) / (max - min || 1)))`. -/
def speedT (speed mn mx : ℚ) : ℚ :=
  max 0 (min 1 ((speed - mn) / (if mx - mn = 0 then 1 else mx - mn)))

/-- `speedColor` from `TrackMap.tsx` (lines 71-77). -/
def speedColor (speed mn mx : ℚ) : String :=
  let t := speedT speed mn mx
  let r := jsRound (30 + t * 225)
  let g := jsRound (120 - t * 100)
  let b := jsRound (255 - t * 230)
  "rgb(" ++ toString r ++ "," ++ toString g ++ "," ++ toString b ++ ")"

/-- The legacy `buildPathData` from `src/unnamed/part_002` (lines 18-53),
which derives min/max, ranges, scale and offsets inline, maps every sample to
a projected point, and then renders the same `M`/`L` path string. -/
def buildPathDataLegacy (telemetry : List TelemetryPoint) (viewBoxSize padding : ℚ) :
    Option String :=
  match telemetry with
  | [] => none
  | t :: ts =>
    let minX := listMin t.x_coordinate (ts.map fun p => p.x_coordinate)
    let maxX := listMax t.x_coordinate (ts.map fun p => p.x_coordinate)
    let minY := listMin t.y_coordinate (ts.map fun p => p.y_coordinate)
    let maxY := listMax t.y_coordinate (ts.map fun p => p.y_coordinate)
    let rangeX := if maxX - minX = 0 then 1 else maxX - minX
    let rangeY := if maxY - minY = 0 then 1 else maxY - minY
    let maxRange := max rangeX rangeY
    let drawable := viewBoxSize - padding * 2
    let scale := drawable / maxRange
    let offsetX := padding + (drawable - rangeX * scale) / 2
    let offsetY := padding + (drawable - rangeY * scale) / 2
    let points := (t :: ts).map fun p =>
      (⟨(p.x_coordinate - minX) * scale + offsetX,
        (p.y_coordinate - minY) * scale + offsetY⟩ : Point)
    some (String.intercalate " "
      (points.enum.map fun ip =>
        (if ip.1 = 0 then "M" else "L") ++ " " ++ toFixed2 ip.2.x ++ " " ++ toFixed2 ip.2.y))

/-- The legacy inline start-marker computation from `src/unnamed/part_002`
(lines 108-131): guarded by `telemetry.length > 0`, it recomputes the same
min/max/range/scale/offset values and projects `telemetry[0]`. -/
def startMarkerLegacy (telemetry : List TelemetryPoint) (viewBoxSize padding : ℚ) :
    Option Point :=
  match telemetry with
  | [] => none
  | t :: ts =>
    let minX := listMin t.x_coordinate (ts.map fun p => p.x_coordinate)
    let maxX := listMax t.x_coordinate (ts.map fun p => p.x_coordinate)
    let minY := listMin t.y_coordinate (ts.map fun p => p.y_coordinate)
    let maxY := listMax t.y_coordinate (ts.map fun p => p.y_coordinate)
    let rangeX := if maxX - minX = 0 then 1 else maxX - minX
    let rangeY := if maxY - minY = 0 then 1 else maxY - minY
    let maxRange := max rangeX rangeY
    let drawable := viewBoxSize - padding * 2
    let scale := drawable / maxRange
    let offsetX := padding + (drawable - rangeX * scale) / 2
    let offsetY := padding + (drawable - rangeY * scale) / 2
    some ⟨(t.x_coordinate - minX) * scale + offsetX,
          (t.y_coordinate - minY) * scale + offsetY⟩

/-!
## Playback controller

The stateful part of `TrackMap.tsx` (lines 98-161).  The React state pair
`currentIndex`/`isPlaying` and the `intervalRef` handle become one record.
To make the "at most one active timer" question expressible, the model keeps
both `tracked` (whether `intervalRef.current` is non-null) and `timers` (how
many repeating intervals are actually armed): `startPlayback` overwrites the
handle without checking it, so a hypothetical double-arm would leak a counted
but untracked interval.  All operations depend on the telemetry array only
through its length `n`.  React's functional state updates are sequentialized,
which is faithful for this component since ticks use the functional form of
`setCurrentIndex`.
-/

/-- The playback controller state: `currentIndex` and `isPlaying` from the
`useState` hooks, `tracked` for `intervalRef.current !== null`, and `timers`
counting armed intervals. -/
structure PlaybackState where
  currentIndex : ℤ
  isPlaying : Bool
  tracked : Bool
  timers : ℕ
  deriving DecidableEq, Repr

/-- The mount-time state: `useState(0)`, `useState(false)`, `useRef(null)`. -/
def initState : PlaybackState := ⟨0, false, false, 0⟩

/-- `stopPlayback` from `TrackMap.tsx` (lines 116-122): clear the interval if
a handle is stored, null the handle, set `isPlaying` to false. -/
def stopPlayback (s : PlaybackState) : PlaybackState :=
  if s.tracked then
    { s with tracked := false, timers := s.timers - 1, isPlaying := false }
  else
    { s with isPlaying := false }

/-- `startPlayback` from `TrackMap.tsx` (lines 124-140): no-op on an empty
sequence; otherwise set `isPlaying` and arm a new interval, overwriting the
stored handle without checking it. -/
def startPlayback (n : ℕ) (s : PlaybackState) : PlaybackState :=
  if n = 0 then s
  else { s with isPlaying := true, tracked := true, timers := s.timers + 1 }

/-- One firing of the interval callback of `startPlayback` (`TrackMap.tsx`
lines 127-138): advance `currentIndex`, except that reaching `next >= n`
clears the interval, sets `isPlaying` to false and keeps the previous
index. -/
def tick (n : ℕ) (s : PlaybackState) : PlaybackState :=
  if s.currentIndex + 1 ≥ (n : ℤ) then
    { s with tracked := false, timers := s.timers - 1, isPlaying := false }
  else
    { s with currentIndex := s.currentIndex + 1 }

/-- `handlePlayPause` from `TrackMap.tsx` (lines 145-153): pause when
playing; otherwise reset the index to 0 when it is at or past the last one,
then start playback. -/
def handlePlayPause (n : ℕ) (s : PlaybackState) : PlaybackState :=
  if s.isPlaying then stopPlayback s
  else
    startPlayback n
      (if s.currentIndex ≥ (n : ℤ) - 1 then { s with currentIndex := 0 } else s)

/-- `handleSliderChange` from `TrackMap.tsx` (lines 155-158): stop playback,
then set `currentIndex` to the slider's value — with no clamping in the
handler itself. -/
def handleSliderChange (v : ℤ) (s : PlaybackState) : PlaybackState :=
  { stopPlayback s with currentIndex := v }

/-- The derived `progress` value from `TrackMap.tsx` (lines 160-161):
`telemetry.length > 1 ? (currentIndex / (telemetry.length - 1)) * 100 : 0`. -/
def progress (n : ℕ) (currentIndex : ℤ) : ℚ :=
  if 1 < n then ((currentIndex : ℚ) / ((n : ℚ) - 1)) * 100 else 0

/-- One user-visible event of the controller.  A `slider` event carries the
value emitted by the range input, which the DOM constrains to the element's
`min={0}` / `max={telemetry.length - 1}` attributes; a `timerTick` can fire
only while an interval handle is stored. -/
inductive Step (n : ℕ) : PlaybackState → PlaybackState → Prop
  | playPause (s : PlaybackState) : Step n s (handlePlayPause n s)
  | slider (s : PlaybackState) (v : ℤ) (h0 : 0 ≤ v) (h1 : v ≤ (n : ℤ) - 1) :
      Step n s (handleSliderChange v s)
  | timerTick (s : PlaybackState) (h : s.tracked = true) : Step n s (tick n s)

/-- States reachable from the mount-time state by controller events. -/
inductive Reachable (n : ℕ) : PlaybackState → Prop
  | base : Reachable n initState
  | step {s t : PlaybackState} : Reachable n s → Step n s t → Reachable n t

/-! ## Helper lemmas about `listMin` / `listMax` -/

lemma listMin_cons (x a : ℚ) (l : List ℚ) : listMin x (a :: l) = listMin (min x a) l := rfl

lemma listMax_cons (x a : ℚ) (l : List ℚ) : listMax x (a :: l) = listMax (max x a) l := rfl

lemma listMin_le_seed (l : List ℚ) : ∀ x, listMin x l ≤ x := by
  induction l with
  | nil => intro x; exact le_refl x
  | cons a l ih =>
    intro x
    exact le_trans (ih (min x a)) (min_le_left x a)

lemma le_listMax_seed (l : List ℚ) : ∀ x, x ≤ listMax x l := by
  induction l with
  | nil => intro x; exact le_refl x
  | cons a l ih =>
    intro x
    exact le_trans (le_max_left x a) (ih (max x a))

lemma listMin_le_of_mem {y : ℚ} {l : List ℚ} (h : y ∈ l) : ∀ x, listMin x l ≤ y := by
  induction l with
  | nil => cases h
  | cons a l ih =>
    intro x
    rcases List.mem_cons.mp h with h1 | h1
    · subst h1
      exact le_trans (listMin_le_seed l (min x y)) (min_le_right x y)
    · exact ih h1 (min x a)

lemma le_listMax_of_mem {y : ℚ} {l : List ℚ} (h : y ∈ l) : ∀ x, y ≤ listMax x l := by
  induction l with
  | nil => cases h
  | cons a l ih =>
    intro x
    rcases List.mem_cons.mp h with h1 | h1
    · subst h1
      exact le_trans (le_max_right x y) (le_listMax_seed l (max x y))
    · exact ih h1 (max x a)

lemma listMin_le_listMax (x : ℚ) (l : List ℚ) : listMin x l ≤ listMax x l :=
  le_trans (listMin_le_seed l x) (le_listMax_seed l x)

/-- A sample's coordinate is at least the minimum over the sequence. -/
lemma listMin_le_coord {q t : TelemetryPoint} {ts : List TelemetryPoint}
    (f : TelemetryPoint → ℚ) (hq : q ∈ t :: ts) :
    listMin (f t) (ts.map f) ≤ f q := by
  rcases List.mem_cons.mp hq with h | h
  · subst h; exact listMin_le_seed _ _
  · exact listMin_le_of_mem (List.mem_map_of_mem f h) _

/-- A sample's coordinate is at most the maximum over the sequence. -/
lemma le_listMax_coord {q t : TelemetryPoint} {ts : List TelemetryPoint}
    (f : TelemetryPoint → ℚ) (hq : q ∈ t :: ts) :
    f q ≤ listMax (f t) (ts.map f) := by
  rcases List.mem_cons.mp hq with h | h
  · subst h; exact le_listMax_seed _ _
  · exact le_listMax_of_mem (List.mem_map_of_mem f h) _

lemma min_affine (c d e a b : ℚ) (hc : 0 ≤ c) :
    min ((a - e) * c + d) ((b - e) * c + d) = (min a b - e) * c + d := by
  rcases le_total a b with hab | hab
  · rw [min_eq_left hab, min_eq_left (by nlinarith)]
  · rw [min_eq_right hab, min_eq_right (by nlinarith)]

lemma max_affine (c d e a b : ℚ) (hc : 0 ≤ c) :
    max ((a - e) * c + d) ((b - e) * c + d) = (max a b - e) * c + d := by
  rcases le_total a b with hab | hab
  · rw [max_eq_right hab, max_eq_right (by nlinarith)]
  · rw [max_eq_left hab, max_eq_left (by nlinarith)]

/-- `listMin` commutes with a monotone affine map of every element. -/
lemma listMin_affine (c d e : ℚ) (hc : 0 ≤ c) (l : List ℚ) :
    ∀ x, listMin ((x - e) * c + d) (l.map fun y => (y - e) * c + d) =
      (listMin x l - e) * c + d := by
  induction l with
  | nil => intro x; rfl
  | cons a l ih =>
    intro x
    rw [List.map_cons, listMin_cons, min_affine c d e x a hc, listMin_cons]
    exact ih (min x a)

/-- `listMax` commutes with a monotone affine map of every element. -/
lemma listMax_affine (c d e : ℚ) (hc : 0 ≤ c) (l : List ℚ) :
    ∀ x, listMax ((x - e) * c + d) (l.map fun y => (y - e) * c + d) =
      (listMax x l - e) * c + d := by
  induction l with
  | nil => intro x; rfl
  | cons a l ih =>
    intro x
    rw [List.map_cons, listMax_cons, max_affine c d e x a hc, listMax_cons]
    exact ih (max x a)

/-- If every element equals `c`, the running minimum is `c`. -/
lemma listMin_const {l : List ℚ} (c : ℚ) (h : ∀ y ∈ l, y = c) : listMin c l = c := by
  induction l with
  | nil => rfl
  | cons a l ih =>
    rw [listMin_cons, h a (List.mem_cons_self a l), min_self]
    exact ih fun y hy => h y (List.mem_cons_of_mem a hy)

/-- If every element equals `c`, the running maximum is `c`. -/
lemma listMax_const {l : List ℚ} (c : ℚ) (h : ∀ y ∈ l, y = c) : listMax c l = c := by
  induction l with
  | nil => rfl
  | cons a l ih =>
    rw [listMax_cons, h a (List.mem_cons_self a l), max_self]
    exact ih fun y hy => h y (List.mem_cons_of_mem a hy)

/-- The `|| 1` substituted range of a non-degenerate extent is positive. -/
lemma ifRange_pos {m M : ℚ} (h : m ≤ M) : 0 < (if M - m = 0 then 1 else M - m) := by
  split_ifs with h0
  · norm_num
  · exact lt_of_le_of_ne (by linarith) (Ne.symm h0)

/-- The raw extent is at most the `|| 1` substituted range. -/
lemma sub_le_ifRange {m M : ℚ} : M - m ≤ (if M - m = 0 then 1 else M - m) := by
  split_ifs with h0
  · linarith
  · linarith

/-- Core interval bound: a coordinate between the extrema, projected with the
shared scale `d / mr` and the centering offset, stays within `[pad, pad+d]`
whenever its axis's substituted range `r` fits under `mr`. -/
lemma proj_bound (m M v r mr pad d : ℚ) (hmv : m ≤ v) (hvM : v ≤ M)
    (hr : M - m ≤ r) (hrpos : 0 < r) (hrmr : r ≤ mr) (hd : 0 ≤ d) :
    pad ≤ (v - m) * (d / mr) + (pad + (d - r * (d / mr)) / 2) ∧
    (v - m) * (d / mr) + (pad + (d - r * (d / mr)) / 2) ≤ pad + d := by
  have hmr : 0 < mr := lt_of_lt_of_le hrpos hrmr
  have hs0 : 0 ≤ d / mr := div_nonneg hd (le_of_lt hmr)
  have hsm : d / mr * mr = d := div_mul_cancel₀ d (ne_of_gt hmr)
  have h1 : r * (d / mr) ≤ d := by
    have h2 := mul_le_mul_of_nonneg_left hrmr hs0
    rw [hsm] at h2
    linarith [mul_comm r (d / mr), h2]
  have h2 : 0 ≤ (v - m) * (d / mr) := mul_nonneg (by linarith) hs0
  have h3 : (v - m) * (d / mr) ≤ r * (d / mr) :=
    mul_le_mul_of_nonneg_right (by linarith) hs0
  constructor <;> linarith

/-- Rewriting helper: mapping an affine image of a coordinate equals mapping
the coordinate and then the affine function. -/
lemma map_affine_coord (ts : List TelemetryPoint) (g : TelemetryPoint → ℚ) (c d e : ℚ) :
    (ts.map fun p => (g p - e) * c + d) = (ts.map g).map fun y => (y - e) * c + d := by
  rw [List.map_map]
  rfl

/-- Concrete two-sample telemetry used by witnesses: samples at `(0,0)` and
`(2,1)`. -/
def sampleA : TelemetryPoint := ⟨0, 0, 0, none, none, none⟩

/-- Second concrete sample, at `(2,1)`. -/
def sampleB : TelemetryPoint := ⟨2, 1, 0, none, none, none⟩

/-- The normalization parameters `buildNormParams` produces for
`[sampleA, sampleB]` with size 800 and padding 40. -/
def sampleParams : NormParams := ⟨0, 0, 360, 40, 220⟩

/-- **C1** For every non-empty telemetry sequence, with square side `S = 800`
and padding `P = 40`, every sample's position projected via the
`NormalizationParameters` produced by `buildNormParams` lies within
`[P, S - P] = [40, 760]` on both axes. -/
theorem boundary_containment (t : TelemetryPoint) (ts : List TelemetryPoint)
    (np : NormParams) (h : buildNormParams (t :: ts) 800 40 = some np)
    (q : TelemetryPoint) (hq : q ∈ t :: ts) :
    (40 ≤ (normPoint q np).x ∧ (normPoint q np).x ≤ 760) ∧
    (40 ≤ (normPoint q np).y ∧ (normPoint q np).y ≤ 760) := by
  obtain ⟨mX, mY, sc, oX, oY⟩ := np
  simp only [buildNormParams, Option.some.injEq, NormParams.mk.injEq] at h
  obtain ⟨h1, h2, h3, h4, h5⟩ := h
  subst h1 h2 h3 h4 h5
  simp only [normPoint]
  set mx := listMin t.x_coordinate (ts.map fun p => p.x_coordinate) with hmxd
  set Mx := listMax t.x_coordinate (ts.map fun p => p.x_coordinate) with hMxd
  set my := listMin t.y_coordinate (ts.map fun p => p.y_coordinate) with hmyd
  set My := listMax t.y_coordinate (ts.map fun p => p.y_coordinate) with hMyd
  set rX := if Mx - mx = 0 then 1 else Mx - mx with hrXd
  set rY := if My - my = 0 then 1 else My - my with hrYd
  have hmMx : mx ≤ Mx := listMin_le_listMax _ _
  have hmMy : my ≤ My := listMin_le_listMax _ _
  have hqx1 : mx ≤ q.x_coordinate := listMin_le_coord (fun p => p.x_coordinate) hq
  have hqx2 : q.x_coordinate ≤ Mx := le_listMax_coord (fun p => p.x_coordinate) hq
  have hqy1 : my ≤ q.y_coordinate := listMin_le_coord (fun p => p.y_coordinate) hq
  have hqy2 : q.y_coordinate ≤ My := le_listMax_coord (fun p => p.y_coordinate) hq
  have hrX : 0 < rX := hrXd ▸ ifRange_pos hmMx
  have hrY : 0 < rY := hrYd ▸ ifRange_pos hmMy
  have hrXr : Mx - mx ≤ rX := hrXd ▸ sub_le_ifRange
  have hrYr : My - my ≤ rY := hrYd ▸ sub_le_ifRange
  have hx := proj_bound mx Mx q.x_coordinate rX (max rX rY) 40 (800 - 40 * 2)
    hqx1 hqx2 hrXr hrX (le_max_left rX rY) (by norm_num)
  have hy := proj_bound my My q.y_coordinate rY (max rX rY) 40 (800 - 40 * 2)
    hqy1 hqy2 hrYr hrY (le_max_right rX rY) (by norm_num)
  exact ⟨⟨by linarith [hx.1], by linarith [hx.2]⟩, ⟨by linarith [hy.1], by linarith [hy.2]⟩⟩

/-- Witness for `boundary_containment`: evaluated on the two-sample telemetry
`[sampleA, sampleB]`. -/
theorem boundary_containment_witness :
    buildNormParams [sampleA, sampleB] 800 40 = some sampleParams ∧
    sampleB ∈ [sampleA, sampleB] ∧
    ((40 ≤ (normPoint sampleB sampleParams).x ∧ (normPoint sampleB sampleParams).x ≤ 760) ∧
     (40 ≤ (normPoint sampleB sampleParams).y ∧ (normPoint sampleB sampleParams).y ≤ 760)) :=
  ⟨by norm_num [buildNormParams, listMin, listMax, sampleA, sampleB, sampleParams,
      min_def, max_def],
   by decide,
   boundary_containment sampleA [sampleB] sampleParams
     (by norm_num [buildNormParams, listMin, listMax, sampleA, sampleB, sampleParams,
        min_def, max_def])
     sampleB (by decide)⟩

/-- **C2** For every non-empty telemetry sequence whose raw x-range and raw
y-range are both non-zero, the ratio of the projected x-range to the
projected y-range (under `buildNormParams` and `normPoint`) equals the ratio
of the raw x-range to the raw y-range: one scale factor serves both axes. -/
theorem aspect_preservation (t : TelemetryPoint) (ts : List TelemetryPoint)
    (np : NormParams) (h : buildNormParams (t :: ts) 800 40 = some np)
    (_hx : listMax t.x_coordinate (ts.map fun p => p.x_coordinate) -
          listMin t.x_coordinate (ts.map fun p => p.x_coordinate) ≠ 0)
    (_hy : listMax t.y_coordinate (ts.map fun p => p.y_coordinate) -
          listMin t.y_coordinate (ts.map fun p => p.y_coordinate) ≠ 0) :
    (listMax (normPoint t np).x (ts.map fun p => (normPoint p np).x) -
       listMin (normPoint t np).x (ts.map fun p => (normPoint p np).x)) /
      (listMax (normPoint t np).y (ts.map fun p => (normPoint p np).y) -
       listMin (normPoint t np).y (ts.map fun p => (normPoint p np).y)) =
    (listMax t.x_coordinate (ts.map fun p => p.x_coordinate) -
       listMin t.x_coordinate (ts.map fun p => p.x_coordinate)) /
      (listMax t.y_coordinate (ts.map fun p => p.y_coordinate) -
       listMin t.y_coordinate (ts.map fun p => p.y_coordinate)) := by
  obtain ⟨mX, mY, sc, oX, oY⟩ := np
  simp only [buildNormParams, Option.some.injEq, NormParams.mk.injEq] at h
  obtain ⟨h1, h2, h3, h4, h5⟩ := h
  subst h1 h2 h3 h4 h5
  simp only [normPoint]
  set mx := listMin t.x_coordinate (ts.map fun p => p.x_coordinate) with hmxd
  set Mx := listMax t.x_coordinate (ts.map fun p => p.x_coordinate) with hMxd
  set my := listMin t.y_coordinate (ts.map fun p => p.y_coordinate) with hmyd
  set My := listMax t.y_coordinate (ts.map fun p => p.y_coordinate) with hMyd
  set rX := if Mx - mx = 0 then 1 else Mx - mx with hrXd
  set rY := if My - my = 0 then 1 else My - my with hrYd
  have hmMx : mx ≤ Mx := listMin_le_listMax _ _
  have hrX : 0 < rX := hrXd ▸ ifRange_pos hmMx
  have hmax : 0 < max rX rY := lt_of_lt_of_le hrX (le_max_left rX rY)
  have hsc : 0 < (800 - 40 * 2 : ℚ) / max rX rY := div_pos (by norm_num) hmax
  rw [map_affine_coord ts (fun p => p.x_coordinate) ((800 - 40 * 2 : ℚ) / max rX rY) _ mx,
      map_affine_coord ts (fun p => p.y_coordinate) ((800 - 40 * 2 : ℚ) / max rX rY) _ my,
      listMin_affine _ _ mx (le_of_lt hsc) _ t.x_coordinate,
      listMax_affine _ _ mx (le_of_lt hsc) _ t.x_coordinate,
      listMin_affine _ _ my (le_of_lt hsc) _ t.y_coordinate,
      listMax_affine _ _ my (le_of_lt hsc) _ t.y_coordinate]
  have e1 : ∀ a b s d : ℚ, (a - b) * s + d - ((b - b) * s + d) = (a - b) * s := by
    intro a b s d; ring
  rw [e1, e1, mul_div_mul_right _ _ (ne_of_gt hsc)]

/-- Witness for `aspect_preservation`: on `[sampleA, sampleB]` the raw ranges
are `2` and `1` and the projected ranges are `720` and `360`. -/
theorem aspect_preservation_witness :
    buildNormParams [sampleA, sampleB] 800 40 = some sampleParams ∧
    (listMax sampleA.x_coordinate ([sampleB].map fun p => p.x_coordinate) -
       listMin sampleA.x_coordinate ([sampleB].map fun p => p.x_coordinate) ≠ 0) ∧
    (listMax sampleA.y_coordinate ([sampleB].map fun p => p.y_coordinate) -
       listMin sampleA.y_coordinate ([sampleB].map fun p => p.y_coordinate) ≠ 0) ∧
    (listMax (normPoint sampleA sampleParams).x
         ([sampleB].map fun p => (normPoint p sampleParams).x) -
       listMin (normPoint sampleA sampleParams).x
         ([sampleB].map fun p => (normPoint p sampleParams).x)) /
      (listMax (normPoint sampleA sampleParams).y
         ([sampleB].map fun p => (normPoint p sampleParams).y) -
       listMin (normPoint sampleA sampleParams).y
         ([sampleB].map fun p => (normPoint p sampleParams).y)) =
    (listMax sampleA.x_coordinate ([sampleB].map fun p => p.x_coordinate) -
       listMin sampleA.x_coordinate ([sampleB].map fun p => p.x_coordinate)) /
      (listMax sampleA.y_coordinate ([sampleB].map fun p => p.y_coordinate) -
       listMin sampleA.y_coordinate ([sampleB].map fun p => p.y_coordinate)) :=
  ⟨by norm_num [buildNormParams, listMin, listMax, sampleA, sampleB, sampleParams,
      min_def, max_def],
   by norm_num [listMin, listMax, sampleA, sampleB, min_def, max_def],
   by norm_num [listMin, listMax, sampleA, sampleB, min_def, max_def],
   aspect_preservation sampleA [sampleB] sampleParams
     (by norm_num [buildNormParams, listMin, listMax, sampleA, sampleB, sampleParams,
        min_def, max_def])
     (by norm_num [listMin, listMax, sampleA, sampleB, min_def, max_def])
     (by norm_num [listMin, listMax, sampleA, sampleB, min_def, max_def])⟩

/-- **C7** counterexample: the claim locates the single projected point at
the center of the drawing square, but for the one-sample telemetry
`[(5, 7)]` the projected position is `(40, 40)` — the padding corner — and
not the square's center `(400, 400)` (which is also the center of the padded
region). -/
theorem single_point_not_center :
    (buildNormParams [⟨5, 7, 100, none, none, none⟩] 800 40).map
        (normPoint ⟨5, 7, 100, none, none, none⟩) = some ⟨40, 40⟩ ∧
    (⟨40, 40⟩ : Point) ≠ ⟨400, 400⟩ := by
  constructor
  · norm_num [buildNormParams, normPoint, listMin, listMax, max_def, Option.map]
  · decide

/-- **C7 (amended)** For every telemetry sequence consisting of exactly one
sample, `buildNormParams` substitutes 1 for each zero coordinate range (so no
division by zero occurs and `scale = drawable / 1 = 720`), and the single
sample's projected position is `(P, P) = (40, 40)`: both offsets collapse to
the padding because the substituted range times the scale fills the whole
drawable extent. -/
theorem single_point_projection (p : TelemetryPoint) :
    buildNormParams [p] 800 40 = some ⟨p.x_coordinate, p.y_coordinate, 720, 40, 40⟩ ∧
    (buildNormParams [p] 800 40).map (normPoint p) = some ⟨40, 40⟩ := by
  constructor
  · norm_num [buildNormParams, listMin, listMax, max_def]
  · norm_num [buildNormParams, normPoint, listMin, listMax, max_def, Option.map]

/-- **C3** counterexample: the slider handler performs no clamping.  Seeking
to `-5` from the initial state (the telemetry length — 10 in the claim — is
never consulted by the handler) leaves `currentIndex = -5`, not the `0` the
claim requires. -/
theorem slider_no_clamp_counterexample :
    (handleSliderChange (-5) initState).currentIndex = -5 ∧
    (handleSliderChange (-5) initState).currentIndex ≠ 0 := by decide

/-- **C3 (amended)** The slider change handler cancels any active timer and
sets `isPlaying` to false, and sets `currentIndex` to its argument directly,
with no clamping — in particular an argument already inside `[0, n-1]` (the
only values the range input's `min`/`max` attributes let the DOM emit) is
stored unchanged. -/
theorem slider_change_sets_index (v : ℤ) (s : PlaybackState) :
    (handleSliderChange v s).currentIndex = v ∧
    (handleSliderChange v s).isPlaying = false ∧
    (handleSliderChange v s).tracked = false := by
  unfold handleSliderChange stopPlayback
  by_cases h : s.tracked <;> simp [h]

/-- **C4** For every telemetry sequence of length `n ≥ 1`, a timer tick
firing while `currentIndex = n - 1` cancels the timer, sets `isPlaying`
to false, and leaves `currentIndex` at `n - 1`: the index neither wraps to 0
nor exceeds `n - 1` by ticking. -/
theorem tick_at_end (n : ℕ) (s : PlaybackState) (_hn : 1 ≤ n)
    (h : s.currentIndex = (n : ℤ) - 1) :
    (tick n s).currentIndex = (n : ℤ) - 1 ∧
    (tick n s).isPlaying = false ∧
    (tick n s).tracked = false ∧
    (tick n s).timers = s.timers - 1 := by
  unfold tick
  rw [if_pos (by omega : s.currentIndex + 1 ≥ (n : ℤ))]
  exact ⟨h, rfl, rfl, rfl⟩

/-- Witness for `tick_at_end`: a playing one-sample sequence at its last
index. -/
theorem tick_at_end_witness :
    (1 ≤ 1) ∧ ((⟨0, true, true, 1⟩ : PlaybackState).currentIndex = (1 : ℤ) - 1) ∧
    ((tick 1 ⟨0, true, true, 1⟩).currentIndex = (1 : ℤ) - 1 ∧
     (tick 1 ⟨0, true, true, 1⟩).isPlaying = false ∧
     (tick 1 ⟨0, true, true, 1⟩).tracked = false ∧
     (tick 1 ⟨0, true, true, 1⟩).timers = (⟨0, true, true, 1⟩ : PlaybackState).timers - 1) :=
  ⟨by decide, by decide, tick_at_end 1 ⟨0, true, true, 1⟩ (by decide) (by decide)⟩

/-- **C5** For every telemetry sequence of length `n ≥ 1`, pressing play
while not playing with `currentIndex = n - 1` first resets `currentIndex`
to 0 and then starts playback, so the first tick will advance from index
0. -/
theorem play_restarts_from_end (n : ℕ) (s : PlaybackState) (hn : 1 ≤ n)
    (hp : s.isPlaying = false) (h : s.currentIndex = (n : ℤ) - 1) :
    (handlePlayPause n s).currentIndex = 0 ∧
    (handlePlayPause n s).isPlaying = true ∧
    (handlePlayPause n s).tracked = true := by
  have h1 : s.currentIndex ≥ (n : ℤ) - 1 := by omega
  have h2 : ¬ (n = 0) := by omega
  simp [handlePlayPause, startPlayback, hp, h1, h2]

/-- Witness for `play_restarts_from_end`: a paused three-sample sequence at
its last index. -/
theorem play_restarts_from_end_witness :
    (1 ≤ 3) ∧ ((⟨2, false, false, 0⟩ : PlaybackState).isPlaying = false) ∧
    ((⟨2, false, false, 0⟩ : PlaybackState).currentIndex = (3 : ℤ) - 1) ∧
    ((handlePlayPause 3 ⟨2, false, false, 0⟩).currentIndex = 0 ∧
     (handlePlayPause 3 ⟨2, false, false, 0⟩).isPlaying = true ∧
     (handlePlayPause 3 ⟨2, false, false, 0⟩).tracked = true) :=
  ⟨by decide, by decide, by decide,
   play_restarts_from_end 3 ⟨2, false, false, 0⟩ (by decide) (by decide) (by decide)⟩
/-- The controller invariant: the stored handle mirrors `isPlaying`, exactly
one interval is armed while a handle is stored (and none otherwise), and the
index is non-negative and — except for the empty-sequence corner where it is
0 — at most `n - 1`. -/
def ControllerInv (n : ℕ) (s : PlaybackState) : Prop :=
  s.tracked = s.isPlaying ∧
  s.timers = (if s.tracked then 1 else 0) ∧
  0 ≤ s.currentIndex ∧
  (s.currentIndex ≤ (n : ℤ) - 1 ∨ s.currentIndex = 0)

lemma controllerInv_init (n : ℕ) : ControllerInv n initState := by
  simp [ControllerInv, initState]

lemma controllerInv_step {n : ℕ} {s u : PlaybackState} (hI : ControllerInv n s)
    (hs : Step n s u) : ControllerInv n u := by
  obtain ⟨i, p, tr, tm⟩ := s
  obtain ⟨h1, h2, h3, h4⟩ := hI
  simp only at h1 h2 h3 h4
  cases hs with
  | playPause =>
    simp only [ControllerInv, handlePlayPause, startPlayback, stopPlayback]
    cases p <;> cases tr <;> simp_all
    all_goals (split_ifs <;> simp_all)
  | slider v h0 hv1 =>
    simp only [ControllerInv, handleSliderChange, stopPlayback]
    cases tr <;> simp_all
  | timerTick htr =>
    simp only at htr
    subst htr
    simp only [ControllerInv, tick]
    split_ifs with hc <;> simp_all
    all_goals omega

/-- Every reachable state satisfies the controller invariant. -/
lemma reachable_inv {n : ℕ} {s : PlaybackState} (h : Reachable n s) :
    ControllerInv n s := by
  induction h with
  | base => exact controllerInv_init n
  | step hr hst ih => exact controllerInv_step ih hst

/-- **C8** In every state reachable from the initial playback state by play /
pause / seek / toggle / tick events, the timer handle is present exactly when
`isPlaying` is true, and at most one interval is ever armed — no operation
arms a second timer while one is active. -/
theorem timer_iff_playing (n : ℕ) (s : PlaybackState) (h : Reachable n s) :
    ((s.tracked = true) ↔ (s.isPlaying = true)) ∧ s.timers ≤ 1 := by
  obtain ⟨h1, h2, h3, h4⟩ := reachable_inv h
  constructor
  · exact h1 ▸ Iff.rfl
  · rw [h2]
    split_ifs <;> omega

/-- Witness for `timer_iff_playing`: the initial state of a five-sample
sequence is reachable. -/
theorem timer_iff_playing_witness :
    Reachable 5 initState ∧
    (((initState.tracked = true) ↔ (initState.isPlaying = true)) ∧
      initState.timers ≤ 1) :=
  ⟨Reachable.base, timer_iff_playing 5 initState Reachable.base⟩

/-- **C6** counterexample: from the initial state of a two-sample sequence, a
slider event to index 1 reaches `currentIndex = 1`, where the derived
`progress` value is `100` — the percentage `(1 / (2 - 1)) * 100` — and not
the fraction `currentIndex / (length - 1) = 1`; in particular it does not lie
in `[0, 1]`. -/
theorem progress_is_percent_counterexample :
    Reachable 2 ⟨1, false, false, 0⟩ ∧
    progress 2 (1 : ℤ) = 100 ∧
    progress 2 (1 : ℤ) ≠ (1 : ℤ) / ((2 : ℚ) - 1) ∧
    ¬ progress 2 (1 : ℤ) ≤ 1 := by
  refine ⟨?_, ?_, ?_, ?_⟩
  · have h := Reachable.step Reachable.base
      (Step.slider (n := 2) initState 1 (by decide) (by decide))
    have he : handleSliderChange 1 initState = ⟨1, false, false, 0⟩ := by decide
    exact he ▸ h
  · norm_num [progress]
  · norm_num [progress]
  · norm_num [progress]

/-- **C6 (amended)** In every reachable playback state, the derived
`progress` value equals `(currentIndex / (length - 1)) * 100` when
`length > 1`, equals 0 when `length ≤ 1`, and always lies in `[0, 100]` — it
is a percentage for the CSS width of the filled slider track, not a fraction
in `[0, 1]`. -/
theorem progress_percent_bounds (n : ℕ) (s : PlaybackState) (h : Reachable n s) :
    0 ≤ progress n s.currentIndex ∧ progress n s.currentIndex ≤ 100 ∧
    (1 < n → progress n s.currentIndex =
      ((s.currentIndex : ℚ) / ((n : ℚ) - 1)) * 100) ∧
    (n ≤ 1 → progress n s.currentIndex = 0) := by
  obtain ⟨h1, h2, h3, h4⟩ := reachable_inv h
  unfold progress
  by_cases hn : 1 < n
  · rw [if_pos hn]
    have hden : (0 : ℚ) < (n : ℚ) - 1 := by
      have h5 : (2 : ℚ) ≤ (n : ℚ) := by exact_mod_cast hn
      linarith
    have hidx0 : (0 : ℚ) ≤ (s.currentIndex : ℚ) := by exact_mod_cast h3
    have hidx1 : (s.currentIndex : ℚ) ≤ (n : ℚ) - 1 := by
      have h6 : s.currentIndex ≤ (n : ℤ) - 1 := by omega
      exact_mod_cast h6
    have hfrac0 : (0 : ℚ) ≤ (s.currentIndex : ℚ) / ((n : ℚ) - 1) :=
      div_nonneg hidx0 (le_of_lt hden)
    have hfrac1 : (s.currentIndex : ℚ) / ((n : ℚ) - 1) ≤ 1 :=
      (div_le_one hden).mpr hidx1
    refine ⟨by nlinarith, by nlinarith, fun _ => rfl, fun hle => absurd hn (by omega)⟩
  · rw [if_neg hn]
    exact ⟨le_refl 0, by norm_num, fun hlt => absurd hlt hn, fun _ => rfl⟩

/-- Witness for `progress_percent_bounds`: the initial state of a two-sample
sequence. -/
theorem progress_percent_bounds_witness :
    Reachable 2 initState ∧
    (0 ≤ progress 2 initState.currentIndex ∧
     progress 2 initState.currentIndex ≤ 100 ∧
     (1 < 2 → progress 2 initState.currentIndex =
       ((initState.currentIndex : ℚ) / ((2 : ℚ) - 1)) * 100) ∧
     (2 ≤ 1 → progress 2 initState.currentIndex = 0)) :=
  ⟨Reachable.base, progress_percent_bounds 2 initState Reachable.base⟩

/-- At equal extrema the interpolation parameter of `speedColor` is zero:
`(c - c) / (c - c || 1)` divides zero by the substituted `1`. -/
lemma speedT_self (c : ℚ) : speedT c c c = 0 := by
  norm_num [speedT, min_def, max_def]

/-- With a zero interpolation parameter, `speedColor` is the low-speed hue. -/
lemma speedColor_of_speedT_zero (sp mn mx : ℚ) (h : speedT sp mn mx = 0) :
    speedColor sp mn mx = "rgb(30,120,255)" := by
  simp only [speedColor, h]
  have h1 : jsRound (30 + 0 * 225) = 30 := by norm_num [jsRound]
  have h2 : jsRound (120 - 0 * 100) = 120 := by norm_num [jsRound]
  have h3 : jsRound (255 - 0 * 230) = 255 := by norm_num [jsRound]
  rw [h1, h2, h3]
  decide

/-- **C9** For every telemetry sequence in which all samples share one speed
value (`minSpeed = maxSpeed`), `speedColor` performs no division by zero (the
zero denominator is replaced by 1), the interpolation parameter `t` is 0 for
every sample, and `speedColor` returns the same color string —
`rgb(30,120,255)` — for every sample. -/
theorem degenerate_speed_color (t : TelemetryPoint) (ts : List TelemetryPoint) (c : ℚ)
    (hall : ∀ q ∈ t :: ts, q.speed = c) :
    listMin t.speed (ts.map fun p => p.speed) = listMax t.speed (ts.map fun p => p.speed) ∧
    ∀ q ∈ t :: ts,
      speedT q.speed (listMin t.speed (ts.map fun p => p.speed))
        (listMax t.speed (ts.map fun p => p.speed)) = 0 ∧
      speedColor q.speed (listMin t.speed (ts.map fun p => p.speed))
        (listMax t.speed (ts.map fun p => p.speed)) = "rgb(30,120,255)" := by
  have ht : t.speed = c := hall t (List.mem_cons_self t ts)
  have hmem : ∀ y ∈ ts.map fun p => p.speed, y = c := by
    intro y hy
    obtain ⟨p, hp, rfl⟩ := List.mem_map.mp hy
    exact hall p (List.mem_cons_of_mem t hp)
  have hmin : listMin t.speed (ts.map fun p => p.speed) = c := by
    rw [ht]; exact listMin_const c hmem
  have hmax : listMax t.speed (ts.map fun p => p.speed) = c := by
    rw [ht]; exact listMax_const c hmem
  refine ⟨by rw [hmin, hmax], fun q hq => ?_⟩
  have hqs : q.speed = c := hall q hq
  rw [hmin, hmax, hqs]
  exact ⟨speedT_self c, speedColor_of_speedT_zero c c c (speedT_self c)⟩

/-- Concrete sample with speed 200 at `(0, 0)`, for the degenerate-speed
witness. -/
def speedSample1 : TelemetryPoint := ⟨0, 0, 200, none, none, none⟩

/-- Concrete sample with speed 200 at `(1, 1)`, for the degenerate-speed
witness. -/
def speedSample2 : TelemetryPoint := ⟨1, 1, 200, none, none, none⟩

/-- Witness for `degenerate_speed_color`: two samples, both at speed 200. -/
theorem degenerate_speed_color_witness :
    (∀ q ∈ [speedSample1, speedSample2], q.speed = 200) ∧
    (listMin speedSample1.speed ([speedSample2].map fun p => p.speed) =
       listMax speedSample1.speed ([speedSample2].map fun p => p.speed) ∧
     ∀ q ∈ [speedSample1, speedSample2],
       speedT q.speed (listMin speedSample1.speed ([speedSample2].map fun p => p.speed))
         (listMax speedSample1.speed ([speedSample2].map fun p => p.speed)) = 0 ∧
       speedColor q.speed (listMin speedSample1.speed ([speedSample2].map fun p => p.speed))
         (listMax speedSample1.speed ([speedSample2].map fun p => p.speed)) =
         "rgb(30,120,255)") :=
  ⟨by decide, degenerate_speed_color speedSample1 [speedSample2] 200 (by decide)⟩

/-- Enumerating a mapped list enumerates the original and maps the values. -/
lemma map_enumFrom {α β : Type} (f : α → β) (l : List α) :
    ∀ i, (l.map f).enumFrom i = (l.enumFrom i).map fun p => (p.1, f p.2) := by
  induction l with
  | nil => intro i; rfl
  | cons a l ih => intro i; simp [List.enumFrom, ih (i + 1)]

/-- `enum` version of `map_enumFrom`. -/
lemma map_enum {α β : Type} (f : α → β) (l : List α) :
    (l.map f).enum = l.enum.map fun p => (p.1, f p.2) :=
  map_enumFrom f l 0

/-- **C10** For every non-empty telemetry sequence and the same square size
and padding, the SVG path string produced by the legacy variant's
`buildPathData` (inline min/max/range/scale/offset derivation) is
character-for-character the path string of the newer variant's
`buildPathData` applied to the `NormalizationParameters` from
`buildNormParams`, and the legacy inline start-marker position equals
`normPoint` of the first sample under those same parameters. -/
theorem legacy_variant_refinement (t : TelemetryPoint) (ts : List TelemetryPoint)
    (S P : ℚ) :
    buildPathDataLegacy (t :: ts) S P =
      (buildNormParams (t :: ts) S P).map (buildPathData (t :: ts)) ∧
    startMarkerLegacy (t :: ts) S P =
      (buildNormParams (t :: ts) S P).map (normPoint t) := by
  constructor
  · simp only [buildPathDataLegacy, buildPathData, buildNormParams, normPoint, Option.map]
    rw [map_enum]
    simp only [List.map_map]
    rfl
  · rfl
